import Mathlib

/-!
Verification of the incident aggregation, prioritization and threat hunting
core of the sagemaker-infosec repository
(src/lib/security_integrations/ai_agent.py and
src/lib/security_integrations/threat_hunting.py).

Python strings are modelled as lists of characters.  Python dictionary
access d.get(k) is modelled by Option-typed structure fields, and
d.get(k, default) by Option.getD.  The language model capability
(the Anthropic client) and the JSON decoder (json.loads) are external
collaborators: the outcome of a model call is a ModelResult value and the
JSON decoder is a function parameter returning none exactly when
json.loads would raise.  A Python exception escaping a translated code
path is modelled by an Option/none result.
-/

/-! ## Python string primitives -/

/-- Model of the Python whitespace test used by str.strip, restricted to the
ASCII whitespace characters. -/
def pyIsSpace (c : Char) : Bool :=
  c = ' ' || c = '\t' || c = '\n' || c = '\r' || c = '\x0b' || c = '\x0c'

/-- Model of Python str.strip with no argument: remove leading and trailing
whitespace characters. -/
def pyStrip (cs : List Char) : List Char :=
  ((cs.dropWhile pyIsSpace).reverse.dropWhile pyIsSpace).reverse

/-- Model of Python str.lstrip with a single character argument: remove every
leading occurrence of that character. -/
def pyLStripChar (c : Char) (cs : List Char) : List Char :=
  cs.dropWhile (· = c)

/-- Index of the first occurrence of a character satisfying p, if any. -/
def firstIdx (p : Char → Bool) : List Char → Option Nat
  | [] => none
  | c :: cs => if p c then some 0 else (firstIdx p cs).map (· + 1)

/-- Model of Python str.find for a single character: index of the first
occurrence, or -1 when absent. -/
def pyFindChar (cs : List Char) (c : Char) : Int :=
  match firstIdx (· = c) cs with
  | some i => (i : Int)
  | none => -1

/-- Model of Python str.rfind for a single character: index of the last
occurrence, or -1 when absent.  The last occurrence in cs is located as the
first occurrence in the reversal of cs. -/
def pyRFindChar (cs : List Char) (c : Char) : Int :=
  match firstIdx (· = c) cs.reverse with
  | some i => (cs.length : Int) - 1 - (i : Int)
  | none => -1

/-- Test that the pattern (second argument) is a prefix of the string
(first argument), written out so the translation is self-contained. -/
def listStartsWith : List Char → List Char → Bool
  | _, [] => true
  | [], _ :: _ => false
  | c :: cs, p :: ps => c = p && listStartsWith cs ps

/-- Index of the first position at which the pattern occurs as a substring,
if any.  This is the search underlying Python str.find and the Python
membership test sub in s. -/
def firstSubIdx (pat : List Char) : List Char → Option Nat
  | [] => if listStartsWith [] pat then some 0 else none
  | c :: cs =>
    if listStartsWith (c :: cs) pat then some 0
    else (firstSubIdx pat cs).map (· + 1)

/-- Model of Python str.find for a substring pattern: first index of an
occurrence, or -1 when the pattern does not occur. -/
def pyFindSub (cs pat : List Char) : Int :=
  match firstSubIdx pat cs with
  | some i => (i : Int)
  | none => -1

/-- Normalisation of one Python slice endpoint: a negative index counts from
the end of the string, and the result is clamped into [0, len]. -/
def pySliceIdx (len : Nat) (i : Int) : Nat :=
  let j : Int := if i < 0 then i + (len : Int) else i
  if j < 0 then 0 else min j.toNat len

/-- Model of the Python slice s[a:b] with unit step: the characters at the
normalised positions a, ..., b-1. -/
def pySlice (cs : List Char) (a b : Int) : List Char :=
  (cs.take (pySliceIdx cs.length b)).drop (pySliceIdx cs.length a)

/-- Model of Python str.split on the newline character. -/
def splitOnNl : List Char → List (List Char)
  | [] => [[]]
  | c :: cs =>
    if c = '\n' then [] :: splitOnNl cs
    else
      match splitOnNl cs with
      | [] => [[c]]
      | l :: ls => (c :: l) :: ls

/-- Model of Python str() applied to an optional string value inside an
f-string: an absent dictionary value is the Python None object and renders
as the text None. -/
def pyStr (o : Option String) : String :=
  o.getD "None"

/-! ## Outcome of one language model call

The Anthropic client is an external collaborator.  One call either raises
(timeout, quota, network, malformed auth), modelled by failure, or returns
the completion text, modelled by success. -/

/-- Outcome of a single language model call. -/
inductive ModelResult where
  | failure : ModelResult
  | success : List Char → ModelResult

/-! ## Vendor record shapes (ai_agent.py, aggregate_incidents)

Each structure carries exactly the dictionary keys that
aggregate_incidents reads, each as an Option since any key may be absent
from the vendor payload.  PPMessage additionally carries a severity field
that the vendor payload may contain but the code never reads; it is kept
so that independence of the produced severity from it is expressible. -/

/-- One element of the behaviors list of a CrowdStrike detection. -/
structure CSDetectionBehavior where
  scenario : Option String
  description : Option String
  deriving DecidableEq

/-- One CrowdStrike detection record. -/
structure CSDetection where
  detection_id : Option String
  behaviors : Option (List CSDetectionBehavior)
  max_severity_displayname : Option String
  first_behavior : Option String
  deriving DecidableEq

/-- One CrowdStrike incident record. -/
structure CSIncident where
  incident_id : Option String
  name : Option String
  description : Option String
  state : Option String
  start : Option String
  deriving DecidableEq

/-- One Microsoft Defender alert record. -/
structure MSAlert where
  id : Option String
  title : Option String
  description : Option String
  severity : Option String
  created_datetime : Option String
  deriving DecidableEq

/-- One Proofpoint blocked message record. -/
structure PPMessage where
  GUID : Option String
  threatType : Option String
  subject : Option String
  messageTime : Option String
  severity : Option String
  deriving DecidableEq

/-- Original vendor record retained in the raw_data field of a normalized
incident. -/
inductive RawData where
  | detection : CSDetection → RawData
  | csIncident : CSIncident → RawData
  | msAlert : MSAlert → RawData
  | ppMessage : PPMessage → RawData
  deriving DecidableEq

/-- Normalized incident as built by aggregate_incidents. -/
structure Incident where
  id : Option String
  title : String
  description : String
  severity : String
  source : String
  timestamp : Option String
  raw_data : RawData
  deriving DecidableEq

/-! ## Source payloads

Each payload is the result dictionary of one vendor source; the code reads
exactly one key with default [], so an error marker payload (which lacks
the key) is modelled by none. -/

/-- Payload of the CrowdStrike detections source. -/
structure CSDetectionsPayload where
  detections : Option (List CSDetection)
  deriving DecidableEq

/-- Payload of the CrowdStrike incidents source. -/
structure CSIncidentsPayload where
  incidents : Option (List CSIncident)
  deriving DecidableEq

/-- Payload of the Microsoft Defender alerts source. -/
structure MSAlertsPayload where
  alerts : Option (List MSAlert)
  deriving DecidableEq

/-- Payload of the Proofpoint events source. -/
structure PPEventsPayload where
  messages_blocked : Option (List PPMessage)
  deriving DecidableEq

/-! ## Normalization (ai_agent.py lines 57-106) -/

/-- Model of detection.get(behaviors, [\x7b\x7d])[0]: when the behaviors key
is absent the default singleton list of one empty dictionary is indexed, so
the result is an empty record; when the key is present, indexing an empty
list raises IndexError, modelled by none. -/
def behaviorsHead (d : CSDetection) : Option CSDetectionBehavior :=
  match d.behaviors with
  | none => some ⟨none, none⟩
  | some bs => bs.head?

/-- Conversion of one CrowdStrike detection (ai_agent.py lines 58-67).  The
result is none exactly when the record has a present but empty behaviors
list, in which case the Python code raises IndexError. -/
def normalize_cs_detection (d : CSDetection) : Option Incident :=
  match behaviorsHead d with
  | none => none
  | some b => some
    { id := d.detection_id
      title := b.scenario.getD "Unknown"
      description := b.description.getD ""
      severity := d.max_severity_displayname.getD "Unknown"
      source := "CrowdStrike"
      timestamp := d.first_behavior
      raw_data := RawData.detection d }

/-- Conversion of one CrowdStrike incident (ai_agent.py lines 70-79). -/
def normalize_cs_incident (i : CSIncident) : Incident :=
  { id := i.incident_id
    title := i.name.getD "Unnamed Incident"
    description := i.description.getD ""
    severity := i.state.getD "Unknown"
    source := "CrowdStrike"
    timestamp := i.start
    raw_data := RawData.csIncident i }

/-- Conversion of one Microsoft Defender alert (ai_agent.py lines 82-91). -/
def normalize_ms_alert (a : MSAlert) : Incident :=
  { id := a.id
    title := a.title.getD "Unknown Alert"
    description := a.description.getD ""
    severity := a.severity.getD "Unknown"
    source := "Microsoft Defender"
    timestamp := a.created_datetime
    raw_data := RawData.msAlert a }

/-- Inclusion filter for Proofpoint blocked messages (ai_agent.py line 95):
msg.get(threatType) in [url, attachment].  An absent threatType is the
Python None object and the membership test is false. -/
def pp_included (m : PPMessage) : Bool :=
  m.threatType == some "url" || m.threatType == some "attachment"

/-- Conversion of one included Proofpoint blocked message (ai_agent.py lines
96-104).  The severity is the constant High and no field of the vendor
record is consulted for it. -/
def normalize_pp (m : PPMessage) : Incident :=
  { id := m.GUID
    title := "Malicious Email Blocked: " ++ pyStr m.threatType
    description := m.subject.getD ""
    severity := "High"
    source := "Proofpoint"
    timestamp := m.messageTime
    raw_data := RawData.ppMessage m }

/-- Conversion of the whole CrowdStrike detections list; the loop body can
raise IndexError (see behaviorsHead), which aborts the whole aggregation,
so the result is none as soon as one element fails. -/
def normalize_detections : List CSDetection → Option (List Incident)
  | [] => some []
  | d :: ds =>
    match normalize_cs_detection d with
    | none => none
    | some i =>
      match normalize_detections ds with
      | none => none
      | some is => some (i :: is)

/-- Model of IncidentResponseAgent.aggregate_incidents (ai_agent.py lines
42-106): the four source payloads are converted in source order and
concatenated; a raised exception in the detections loop propagates and is
modelled by none. -/
def aggregate_incidents (cs_detections : CSDetectionsPayload)
    (cs_incidents : CSIncidentsPayload) (ms_alerts : MSAlertsPayload)
    (pp_events : PPEventsPayload) : Option (List Incident) :=
  match normalize_detections (cs_detections.detections.getD []) with
  | none => none
  | some ds => some
      (ds
        ++ (cs_incidents.incidents.getD []).map normalize_cs_incident
        ++ (ms_alerts.alerts.getD []).map normalize_ms_alert
        ++ ((pp_events.messages_blocked.getD []).filter pp_included).map
             normalize_pp)

/-! ## Prioritizer (ai_agent.py, analyze_incidents) -/

/-- One campaign record of the analysis dictionary. -/
structure Campaign where
  name : String
  related_incidents : List String
  description : String
  deriving DecidableEq

/-- Analysis dictionary returned by analyze_incidents: three priority
buckets and the campaign groupings. -/
structure Analysis where
  high_priority : List Incident
  medium_priority : List Incident
  low_priority : List Incident
  campaigns : List Campaign
  deriving DecidableEq

/-- Severity values routed to the high bucket (ai_agent.py line 197). -/
def high_severity : List String :=
  ["Critical", "High", "critical", "high"]

/-- Severity values routed to the medium bucket (ai_agent.py line 198). -/
def medium_severity : List String :=
  ["Medium", "medium"]

/-- Model of IncidentResponseAgent._basic_prioritization (ai_agent.py lines
195-205): three list comprehensions filtering on severity membership, and
an empty campaigns list. -/
def basic_prioritization (incidents : List Incident) : Analysis :=
  { high_priority :=
      incidents.filter (fun inc => high_severity.contains inc.severity)
    medium_priority :=
      incidents.filter (fun inc => medium_severity.contains inc.severity)
    low_priority :=
      incidents.filter
        (fun inc => !(high_severity ++ medium_severity).contains inc.severity)
    campaigns := [] }

/-- Model of the brace extraction in analyze_incidents (ai_agent.py lines
170-172): the slice from the index of the first opening brace to one past
the index of the last closing brace, with the Python find/rfind value -1
taken literally as a slice endpoint. -/
def extracted_json (cs : List Char) : List Char :=
  pySlice cs (pyFindChar cs '\x7b') (pyRFindChar cs '\x7d' + 1)

/-- Model of IncidentResponseAgent.analyze_incidents (ai_agent.py lines
108-179).  The loads parameter stands for the external json.loads decoder
applied to the extracted slice, returning none exactly when it raises;
the whole try block falls back to basic_prioritization when the model call
raises or when decoding raises. -/
def analyze_incidents (loads : List Char → Option Analysis)
    (model : ModelResult) (incidents : List Incident) : Analysis :=
  match model with
  | ModelResult.failure => basic_prioritization incidents
  | ModelResult.success text =>
    match loads (extracted_json text) with
    | some analysis => analysis
    | none => basic_prioritization incidents

/-! ## Helper lemmas about the aggregation -/

/-- Length preservation of the detections loop when no element raises. -/
lemma normalize_detections_length :
    ∀ {l : List CSDetection} {out : List Incident},
      normalize_detections l = some out → out.length = l.length := by
  intro l
  induction l with
  | nil =>
    intro out h
    simp only [normalize_detections, Option.some.injEq] at h
    subst h
    rfl
  | cons d ds ih =>
    intro out h
    simp only [normalize_detections] at h
    cases hd : normalize_cs_detection d <;> rw [hd] at h
    · exact absurd h (by simp)
    · cases hds : normalize_detections ds <;> rw [hds] at h
      · exact absurd h (by simp)
      · simp only [Option.some.injEq] at h
        subst h
        simp [ih hds]

/-- Every incident produced by the detections loop comes from a detection
record of the input list. -/
lemma normalize_detections_mem :
    ∀ {l : List CSDetection} {out : List Incident},
      normalize_detections l = some out →
      ∀ inc ∈ out, ∃ d ∈ l, normalize_cs_detection d = some inc := by
  intro l
  induction l with
  | nil =>
    intro out h
    simp only [normalize_detections, Option.some.injEq] at h
    subst h
    simp
  | cons d ds ih =>
    intro out h
    simp only [normalize_detections] at h
    cases hd : normalize_cs_detection d <;> rw [hd] at h
    · exact absurd h (by simp)
    case some i =>
      cases hds : normalize_detections ds <;> rw [hds] at h
      · exact absurd h (by simp)
      case some is =>
        simp only [Option.some.injEq] at h
        subst h
        intro inc hinc
        rcases List.mem_cons.1 hinc with rfl | hmem
        · exact ⟨d, List.mem_cons_self d ds, hd⟩
        · rcases ih hds inc hmem with ⟨d2, hd2, hnd2⟩
          exact ⟨d2, List.mem_cons_of_mem _ hd2, hnd2⟩

/-- Raw data identity for a successful detection conversion. -/
lemma normalize_cs_detection_raw {d : CSDetection} {inc : Incident}
    (h : normalize_cs_detection d = some inc) :
    inc.raw_data = RawData.detection d := by
  unfold normalize_cs_detection at h
  cases hb : behaviorsHead d <;> rw [hb] at h
  · exact absurd h (by simp)
  · simp only [Option.some.injEq] at h
    subst h
    rfl

/-- Decomposition of a successful aggregation into its four source groups,
in source order. -/
lemma aggregate_incidents_eq {cd : CSDetectionsPayload}
    {ci : CSIncidentsPayload} {ma : MSAlertsPayload} {pe : PPEventsPayload}
    {out : List Incident} (h : aggregate_incidents cd ci ma pe = some out) :
    ∃ ds, normalize_detections (cd.detections.getD []) = some ds ∧
      out = ds
        ++ (ci.incidents.getD []).map normalize_cs_incident
        ++ (ma.alerts.getD []).map normalize_ms_alert
        ++ ((pe.messages_blocked.getD []).filter pp_included).map
             normalize_pp := by
  unfold aggregate_incidents at h
  cases hds : normalize_detections (cd.detections.getD []) <;> rw [hds] at h
  · exact absurd h (by simp)
  · simp only [Option.some.injEq] at h
    exact ⟨_, rfl, h.symm⟩

/-! ## Sample records used by witnesses -/

/-- Sample CrowdStrike detection with all read keys present. -/
def sampleDetection : CSDetection :=
  ⟨some "d1", some [⟨some "Credential Theft", some "mimikatz seen"⟩],
    some "High", some "2024-01-01T00:00:00Z"⟩

/-- Sample CrowdStrike incident with name and description absent. -/
def sampleCSIncident : CSIncident :=
  ⟨some "i1", none, none, some "open", none⟩

/-- Sample Microsoft Defender alert. -/
def sampleMSAlert : MSAlert :=
  ⟨some "a1", some "Risky sign in", some "imposs travel", some "medium",
    some "2024-01-02T00:00:00Z"⟩

/-- Sample Proofpoint message with an included threat type. -/
def samplePPIncluded : PPMessage :=
  ⟨some "g1", some "url", some "invoice", some "2024-01-03T00:00:00Z",
    some "Low"⟩

/-- Sample Proofpoint message with an excluded threat type. -/
def samplePPDropped : PPMessage :=
  ⟨some "g2", some "spam", none, none, none⟩

/-- Sample aggregation input payloads (the Microsoft payload is an error
marker that lacks the alerts key). -/
def samplePayloads :
    CSDetectionsPayload × CSIncidentsPayload × MSAlertsPayload
      × PPEventsPayload :=
  (⟨some [sampleDetection]⟩, ⟨some [sampleCSIncident]⟩, ⟨none⟩,
    ⟨some [samplePPIncluded, samplePPDropped]⟩)

/-- Aggregation output on the sample payloads, written out. -/
def sampleAggOut : List Incident :=
  [⟨some "d1", "Credential Theft", "mimikatz seen", "High", "CrowdStrike",
      some "2024-01-01T00:00:00Z", RawData.detection sampleDetection⟩,
    ⟨some "i1", "Unnamed Incident", "", "open", "CrowdStrike", none,
      RawData.csIncident sampleCSIncident⟩,
    ⟨some "g1", "Malicious Email Blocked: url", "invoice", "High",
      "Proofpoint", some "2024-01-03T00:00:00Z",
      RawData.ppMessage samplePPIncluded⟩]

/-! ## Claim C3 -/

/-- Claim C3: whenever aggregate_incidents returns a list, its length is
the sum of the per source counts of included records, and the list is the
concatenation of the four source groups in source order (endpoint
detections, endpoint incidents, identity alerts, included email events),
each group the image of its payload list and hence preserving its internal
order. -/
theorem claim_C3_aggregate_order_and_length (cd : CSDetectionsPayload)
    (ci : CSIncidentsPayload) (ma : MSAlertsPayload) (pe : PPEventsPayload)
    (out : List Incident) (h : aggregate_incidents cd ci ma pe = some out) :
    (∃ ds, normalize_detections (cd.detections.getD []) = some ds ∧
      ds.length = (cd.detections.getD []).length ∧
      out = ds
        ++ (ci.incidents.getD []).map normalize_cs_incident
        ++ (ma.alerts.getD []).map normalize_ms_alert
        ++ ((pe.messages_blocked.getD []).filter pp_included).map
             normalize_pp) ∧
    out.length = (cd.detections.getD []).length
      + (ci.incidents.getD []).length + (ma.alerts.getD []).length
      + ((pe.messages_blocked.getD []).filter pp_included).length := by
  rcases aggregate_incidents_eq h with ⟨ds, hds, hout⟩
  have hlen := normalize_detections_length hds
  refine ⟨⟨ds, hds, hlen, hout⟩, ?_⟩
  subst hout
  simp [List.length_append, hlen]
  omega

/-- Witness for claim C3 at the sample payloads. -/
theorem claim_C3_witness :
    sampleAggOut.length = 1 + 1 + 0 + 1 := by
  have h : aggregate_incidents samplePayloads.1 samplePayloads.2.1
      samplePayloads.2.2.1 samplePayloads.2.2.2 = some sampleAggOut := by
    decide
  have := (claim_C3_aggregate_order_and_length samplePayloads.1
    samplePayloads.2.1 samplePayloads.2.2.1 samplePayloads.2.2.2
    sampleAggOut h).2
  simpa using this

/-! ## Claim C2 -/

/-- Claim C2: whenever aggregate_incidents returns a list, a blocked email
message of the email payload appears in the output (as the raw_data of an
incident) if and only if its threatType field is url or attachment, and
every output incident built from a blocked email message has severity
High, whatever severity field the vendor record itself carries. -/
theorem claim_C2_email_filter_and_severity (cd : CSDetectionsPayload)
    (ci : CSIncidentsPayload) (ma : MSAlertsPayload) (pe : PPEventsPayload)
    (out : List Incident) (h : aggregate_incidents cd ci ma pe = some out)
    (m : PPMessage) (hm : m ∈ pe.messages_blocked.getD []) :
    ((∃ inc ∈ out, inc.raw_data = RawData.ppMessage m) ↔
      (m.threatType = some "url" ∨ m.threatType = some "attachment")) ∧
    (∀ inc ∈ out, inc.raw_data = RawData.ppMessage m →
      inc.severity = "High") := by
  rcases aggregate_incidents_eq h with ⟨ds, hds, hout⟩
  subst hout
  constructor
  · constructor
    · rintro ⟨inc, hinc, hraw⟩
      rcases List.mem_append.1 hinc with hinc | hpp
      · rcases List.mem_append.1 hinc with hinc | hms
        · rcases List.mem_append.1 hinc with hdet | hcsi
          · rcases normalize_detections_mem hds inc hdet with ⟨d, _, hnd⟩
            rw [normalize_cs_detection_raw hnd] at hraw
            exact absurd hraw (by simp)
          · rcases List.mem_map.1 hcsi with ⟨i, _, rfl⟩
            exact absurd hraw (by simp [normalize_cs_incident])
        · rcases List.mem_map.1 hms with ⟨a, _, rfl⟩
          exact absurd hraw (by simp [normalize_ms_alert])
      · rcases List.mem_map.1 hpp with ⟨m2, hm2, rfl⟩
        have : m2 = m := by
          simpa [normalize_pp] using hraw
        subst this
        have hincl : pp_included m2 = true := (List.mem_filter.1 hm2).2
        simp only [pp_included, Bool.or_eq_true, beq_iff_eq] at hincl
        exact hincl
    · intro ht
      refine ⟨normalize_pp m, ?_, rfl⟩
      have hincl : pp_included m = true := by
        simp only [pp_included, Bool.or_eq_true, beq_iff_eq]
        exact ht
      exact List.mem_append.2 (Or.inr
        (List.mem_map.2 ⟨m, List.mem_filter.2 ⟨hm, hincl⟩, rfl⟩))
  · intro inc hinc hraw
    rcases List.mem_append.1 hinc with hinc | hpp
    · rcases List.mem_append.1 hinc with hinc | hms
      · rcases List.mem_append.1 hinc with hdet | hcsi
        · rcases normalize_detections_mem hds inc hdet with ⟨d, _, hnd⟩
          rw [normalize_cs_detection_raw hnd] at hraw
          exact absurd hraw (by simp)
        · rcases List.mem_map.1 hcsi with ⟨i, _, rfl⟩
          exact absurd hraw (by simp [normalize_cs_incident])
      · rcases List.mem_map.1 hms with ⟨a, _, rfl⟩
        exact absurd hraw (by simp [normalize_ms_alert])
    · rcases List.mem_map.1 hpp with ⟨m2, _, rfl⟩
      rfl

/-- Witness for claim C2 at the sample payloads: the included url message
yields an incident of severity High, and the dropped spam message yields
no incident. -/
theorem claim_C2_witness :
    ((∃ inc ∈ sampleAggOut,
        inc.raw_data = RawData.ppMessage samplePPIncluded) ↔
      (samplePPIncluded.threatType = some "url" ∨
        samplePPIncluded.threatType = some "attachment")) ∧
    (∀ inc ∈ sampleAggOut,
      inc.raw_data = RawData.ppMessage samplePPIncluded →
      inc.severity = "High") :=
  claim_C2_email_filter_and_severity samplePayloads.1 samplePayloads.2.1
    samplePayloads.2.2.1 samplePayloads.2.2.2 sampleAggOut (by decide)
    samplePPIncluded (by decide)

/-! ## Claim C9 -/

/-- Claim C9: every incident produced by a successful aggregation comes
from exactly one vendor record of one of the four payload lists, and its
raw_data field is that original record unmodified, for all four record
shapes. -/
theorem claim_C9_raw_data_identity (cd : CSDetectionsPayload)
    (ci : CSIncidentsPayload) (ma : MSAlertsPayload) (pe : PPEventsPayload)
    (out : List Incident) (h : aggregate_incidents cd ci ma pe = some out)
    (inc : Incident) (hinc : inc ∈ out) :
    (∃ d ∈ cd.detections.getD [], normalize_cs_detection d = some inc ∧
      inc.raw_data = RawData.detection d) ∨
    (∃ i ∈ ci.incidents.getD [], inc = normalize_cs_incident i ∧
      inc.raw_data = RawData.csIncident i) ∨
    (∃ a ∈ ma.alerts.getD [], inc = normalize_ms_alert a ∧
      inc.raw_data = RawData.msAlert a) ∨
    (∃ m ∈ pe.messages_blocked.getD [], inc = normalize_pp m ∧
      inc.raw_data = RawData.ppMessage m) := by
  rcases aggregate_incidents_eq h with ⟨ds, hds, hout⟩
  subst hout
  rcases List.mem_append.1 hinc with hinc | hpp
  · rcases List.mem_append.1 hinc with hinc | hms
    · rcases List.mem_append.1 hinc with hdet | hcsi
      · rcases normalize_detections_mem hds inc hdet with ⟨d, hdmem, hnd⟩
        exact Or.inl ⟨d, hdmem, hnd, normalize_cs_detection_raw hnd⟩
      · rcases List.mem_map.1 hcsi with ⟨i, himem, rfl⟩
        exact Or.inr (Or.inl ⟨i, himem, rfl, rfl⟩)
    · rcases List.mem_map.1 hms with ⟨a, hamem, rfl⟩
      exact Or.inr (Or.inr (Or.inl ⟨a, hamem, rfl, rfl⟩))
  · rcases List.mem_map.1 hpp with ⟨m, hmmem, rfl⟩
    exact Or.inr (Or.inr (Or.inr
      ⟨m, (List.mem_filter.1 hmmem).1, rfl, rfl⟩))

/-- First incident of the sample aggregation output, produced from the
sample detection. -/
def sampleDetectionIncident : Incident :=
  ⟨some "d1", "Credential Theft", "mimikatz seen", "High", "CrowdStrike",
    some "2024-01-01T00:00:00Z", RawData.detection sampleDetection⟩

/-- Witness for claim C9 at the sample payloads, applied to the incident
produced by the sample detection. -/
theorem claim_C9_witness :
    (∃ d ∈ samplePayloads.1.detections.getD [],
      normalize_cs_detection d = some sampleDetectionIncident ∧
      sampleDetectionIncident.raw_data = RawData.detection d) ∨
    (∃ i ∈ samplePayloads.2.1.incidents.getD [],
      sampleDetectionIncident = normalize_cs_incident i ∧
      sampleDetectionIncident.raw_data = RawData.csIncident i) ∨
    (∃ a ∈ samplePayloads.2.2.1.alerts.getD [],
      sampleDetectionIncident = normalize_ms_alert a ∧
      sampleDetectionIncident.raw_data = RawData.msAlert a) ∨
    (∃ m ∈ samplePayloads.2.2.2.messages_blocked.getD [],
      sampleDetectionIncident = normalize_pp m ∧
      sampleDetectionIncident.raw_data = RawData.ppMessage m) :=
  claim_C9_raw_data_identity samplePayloads.1 samplePayloads.2.1
    samplePayloads.2.2.1 samplePayloads.2.2.2 sampleAggOut (by decide)
    sampleDetectionIncident (by decide)

/-! ## Claim C4 -/

/-- Microsoft Defender alert record with every key absent. -/
def titleLessAlert : MSAlert := ⟨none, none, none, none, none⟩

/-- Counterexample to claim C4 as stated: an identity alert with an absent
title normalizes with title Unknown Alert, which is neither of the two
documented defaults Unknown and Unnamed Incident. -/
theorem claim_C4_counterexample :
    aggregate_incidents ⟨some []⟩ ⟨some []⟩ ⟨some [titleLessAlert]⟩
        ⟨some []⟩ = some [normalize_ms_alert titleLessAlert] ∧
    (normalize_ms_alert titleLessAlert).title = "Unknown Alert" ∧
    ¬((normalize_ms_alert titleLessAlert).title = "Unknown" ∨
      (normalize_ms_alert titleLessAlert).title = "Unnamed Incident") := by
  decide

/-- Claim C4 as amended: normalization inside aggregate_incidents never
fails on records whose optional keys are absent, and substitutes the shape
specific defaults: title Unknown for endpoint detections, Unnamed Incident
for endpoint incidents, and Unknown Alert for identity alerts; severity
Unknown for those three shapes and the constant High for included email
records; description the empty string for all shapes. -/
theorem claim_C4_amended_defaults (d : CSDetection) (i : CSIncident)
    (a : MSAlert) (m : PPMessage) :
    (d.behaviors = none → d.max_severity_displayname = none →
      normalize_cs_detection d = some
        { id := d.detection_id, title := "Unknown", description := "",
          severity := "Unknown", source := "CrowdStrike",
          timestamp := d.first_behavior,
          raw_data := RawData.detection d }) ∧
    (i.name = none → i.description = none → i.state = none →
      normalize_cs_incident i =
        { id := i.incident_id, title := "Unnamed Incident",
          description := "", severity := "Unknown",
          source := "CrowdStrike", timestamp := i.start,
          raw_data := RawData.csIncident i }) ∧
    (a.title = none → a.description = none → a.severity = none →
      normalize_ms_alert a =
        { id := a.id, title := "Unknown Alert", description := "",
          severity := "Unknown", source := "Microsoft Defender",
          timestamp := a.created_datetime,
          raw_data := RawData.msAlert a }) ∧
    (m.subject = none →
      (normalize_pp m).description = "" ∧
      (normalize_pp m).severity = "High") := by
  refine ⟨?_, ?_, ?_, ?_⟩
  · intro hb hs
    simp [normalize_cs_detection, behaviorsHead, hb, hs]
  · intro hn hd hs
    simp [normalize_cs_incident, hn, hd, hs]
  · intro ht hd hs
    simp [normalize_ms_alert, ht, hd, hs]
  · intro hs
    simp [normalize_pp, hs]

/-- Witness for the amended claim C4 on the all absent identity alert. -/
theorem claim_C4_witness :
    normalize_ms_alert titleLessAlert =
      { id := none, title := "Unknown Alert", description := "",
        severity := "Unknown", source := "Microsoft Defender",
        timestamp := none, raw_data := RawData.msAlert titleLessAlert } :=
  (claim_C4_amended_defaults ⟨none, none, none, none⟩
    ⟨none, none, none, none, none⟩ titleLessAlert
    ⟨none, none, none, none, none⟩).2.2.1 rfl rfl rfl

/-! ## Claim C1 -/

/-- Concatenating the three filters of a two predicate partition (first
bucket, second bucket, remainder) permutes the original list. -/
lemma filter_partition_perm {α : Type} (p q : α → Bool)
    (hpq : ∀ a, p a = true → q a = false) (l : List α) :
    (l.filter p ++ l.filter q ++ l.filter (fun a => !(p a || q a))).Perm
      l := by
  induction l with
  | nil => simp
  | cons a l ih =>
    cases hp : p a
    · cases hq : q a
      · simp only [List.filter_cons, hp, hq]
        simp only [Bool.or_self, Bool.not_false, if_true,
          Bool.false_eq_true, if_false]
        exact (List.perm_middle).trans (ih.cons a)
      · simp only [List.filter_cons, hp, hq]
        simp only [Bool.or_true, Bool.not_true, Bool.false_eq_true,
          if_false, if_true]
        rw [List.append_assoc]
        refine (List.perm_middle).trans ?_
        refine List.Perm.cons a ?_
        simp only [List.append_eq]
        rw [← List.append_assoc]
        exact ih
    · have hq : q a = false := hpq a hp
      simp only [List.filter_cons, hp, hq]
      simp only [Bool.true_or, Bool.not_true, Bool.false_eq_true, if_false,
        if_true, List.cons_append]
      exact ih.cons a

/-- Decoder that always raises, the simplest faithful stand in for
json.loads on inputs that are not valid JSON; used by witnesses. -/
def loadsNone : List Char → Option Analysis := fun _ => none

/-- Claim C1: on a model capability failure, analyze_incidents returns the
deterministic fallback bucketing: an incident is in high_priority exactly
when its severity is one of Critical, High, critical, high, in
medium_priority exactly when it is Medium or medium, in low_priority
exactly otherwise; the three buckets together are a permutation of the
input (no loss, no duplication, incidents kept verbatim); and campaigns is
empty. -/
theorem claim_C1_failure_fallback (loads : List Char → Option Analysis)
    (incidents : List Incident) :
    analyze_incidents loads ModelResult.failure incidents =
      basic_prioritization incidents ∧
    (∀ inc, inc ∈ (analyze_incidents loads ModelResult.failure
        incidents).high_priority ↔
      inc ∈ incidents ∧ (inc.severity = "Critical" ∨
        inc.severity = "High" ∨ inc.severity = "critical" ∨
        inc.severity = "high")) ∧
    (∀ inc, inc ∈ (analyze_incidents loads ModelResult.failure
        incidents).medium_priority ↔
      inc ∈ incidents ∧ (inc.severity = "Medium" ∨
        inc.severity = "medium")) ∧
    (∀ inc, inc ∈ (analyze_incidents loads ModelResult.failure
        incidents).low_priority ↔
      inc ∈ incidents ∧ ¬(inc.severity = "Critical" ∨
        inc.severity = "High" ∨ inc.severity = "critical" ∨
        inc.severity = "high" ∨ inc.severity = "Medium" ∨
        inc.severity = "medium")) ∧
    ((analyze_incidents loads ModelResult.failure incidents).high_priority
      ++ (analyze_incidents loads ModelResult.failure
            incidents).medium_priority
      ++ (analyze_incidents loads ModelResult.failure
            incidents).low_priority).Perm incidents ∧
    (analyze_incidents loads ModelResult.failure incidents).campaigns
      = [] := by
  have hr : analyze_incidents loads ModelResult.failure incidents =
      basic_prioritization incidents := rfl
  rw [hr]
  refine ⟨rfl, ?_, ?_, ?_, ?_, rfl⟩
  · intro inc
    simp [basic_prioritization, List.mem_filter, high_severity]
  · intro inc
    simp [basic_prioritization, List.mem_filter, medium_severity]
  · intro inc
    simp [basic_prioritization, List.mem_filter, high_severity,
      medium_severity]
  · have hpq : ∀ inc : Incident,
        high_severity.contains inc.severity = true →
        medium_severity.contains inc.severity = false := by
      intro a ha
      simp [high_severity] at ha
      rcases ha with h | h | h | h <;> rw [show a.severity = _ from h] <;>
        decide
    have hlow : (basic_prioritization incidents).low_priority =
        incidents.filter (fun inc =>
          !(high_severity.contains inc.severity ||
            medium_severity.contains inc.severity)) := by
      simp only [basic_prioritization]
      apply List.filter_congr
      intro a _
      simp
    have hperm := filter_partition_perm
      (fun inc => high_severity.contains inc.severity)
      (fun inc => medium_severity.contains inc.severity) hpq incidents
    rw [show (basic_prioritization incidents).high_priority =
      incidents.filter (fun inc => high_severity.contains inc.severity)
      from rfl]
    rw [show (basic_prioritization incidents).medium_priority =
      incidents.filter (fun inc => medium_severity.contains inc.severity)
      from rfl]
    rw [hlow]
    exact hperm

/-- Witness for claim C1 on a one element incident list with a high
severity. -/
theorem claim_C1_witness :
    sampleDetectionIncident ∈ (analyze_incidents loadsNone
      ModelResult.failure [sampleDetectionIncident]).high_priority ∧
    (analyze_incidents loadsNone ModelResult.failure
      [sampleDetectionIncident]).campaigns = [] :=
  ⟨((claim_C1_failure_fallback loadsNone [sampleDetectionIncident]).2.1
      sampleDetectionIncident).mpr ⟨by decide, by decide⟩,
    (claim_C1_failure_fallback loadsNone
      [sampleDetectionIncident]).2.2.2.2.2⟩

/-! ## Claim C6 -/

/-- Any index reported by firstIdx is inside the list. -/
lemma firstIdx_some_lt {p : Char → Bool} :
    ∀ {cs : List Char} {i : Nat}, firstIdx p cs = some i →
      i < cs.length := by
  intro cs
  induction cs with
  | nil => intro i h; exact Option.noConfusion h
  | cons c cs ih =>
    intro i h
    simp only [firstIdx] at h
    by_cases hc : p c
    · rw [if_pos hc] at h
      simp only [Option.some.injEq] at h
      subst h
      simp
    · rw [if_neg hc] at h
      cases hrec : firstIdx p cs <;> rw [hrec] at h
      · exact absurd h (by simp)
      · simp at h
        subst h
        have := ih hrec
        simp only [List.length_cons]
        omega

/-- The character at an index reported by firstIdx satisfies the
predicate. -/
lemma firstIdx_some_getElem {p : Char → Bool} :
    ∀ {cs : List Char} {i : Nat}, firstIdx p cs = some i →
      ∃ c, cs[i]? = some c ∧ p c = true := by
  intro cs
  induction cs with
  | nil => intro i h; exact Option.noConfusion h
  | cons c cs ih =>
    intro i h
    simp only [firstIdx] at h
    by_cases hc : p c
    · rw [if_pos hc] at h
      simp only [Option.some.injEq] at h
      subst h
      exact ⟨c, by simp, hc⟩
    · rw [if_neg hc] at h
      cases hrec : firstIdx p cs <;> rw [hrec] at h
      · exact absurd h (by simp)
      · simp at h
        subst h
        rcases ih hrec with ⟨c2, hget, hp⟩
        exact ⟨c2, by simpa using hget, hp⟩

/-- Computation of a slice endpoint for an in range nonnegative index. -/
lemma pySliceIdx_of_nonneg {len : Nat} {i : Int} (h0 : 0 ≤ i)
    (h1 : i ≤ (len : Int)) : pySliceIdx len i = i.toNat := by
  simp only [pySliceIdx]
  rw [if_neg (by omega : ¬ i < 0), if_neg (by omega : ¬ i < 0)]
  omega

/-- Computation of the slice endpoint -1 on a nonempty string. -/
lemma pySliceIdx_neg_one {len : Nat} (h : 1 ≤ len) :
    pySliceIdx len (-1) = len - 1 := by
  simp only [pySliceIdx]
  rw [if_pos (by omega : (-1 : Int) < 0)]
  rw [if_neg (by omega : ¬ (-1 : Int) + (len : Int) < 0)]
  omega

/-- Computation of the slice endpoint 0. -/
lemma pySliceIdx_zero {len : Nat} : pySliceIdx len 0 = 0 := by
  simp only [pySliceIdx]
  rw [if_neg (by omega : ¬ (0 : Int) < 0), if_neg (by omega :
    ¬ (0 : Int) < 0)]
  simp

/-- A drop beyond the length of a take is empty. -/
lemma take_drop_nil {l : List Char} {n m : Nat} (h : n ≤ m) :
    (l.take n).drop m = [] := by
  apply List.drop_eq_nil_of_le
  calc (l.take n).length ≤ n := by simp
    _ ≤ m := h

/-- Equation for pyFindChar when the character is absent. -/
lemma pyFindChar_eq_none {cs : List Char} {c : Char}
    (h : firstIdx (· = c) cs = none) : pyFindChar cs c = -1 := by
  simp [pyFindChar, h]

/-- Equation for pyFindChar when the character occurs first at i. -/
lemma pyFindChar_eq_some {cs : List Char} {c : Char} {i : Nat}
    (h : firstIdx (· = c) cs = some i) : pyFindChar cs c = (i : Int) := by
  simp [pyFindChar, h]

/-- Equation for pyRFindChar when the character is absent. -/
lemma pyRFindChar_eq_none {cs : List Char} {c : Char}
    (h : firstIdx (· = c) cs.reverse = none) : pyRFindChar cs c = -1 := by
  simp [pyRFindChar, h]

/-- Equation for pyRFindChar when the character occurs in the reversal
first at j. -/
lemma pyRFindChar_eq_some {cs : List Char} {c : Char} {j : Nat}
    (h : firstIdx (· = c) cs.reverse = some j) :
    pyRFindChar cs c = (cs.length : Int) - 1 - (j : Int) := by
  simp [pyRFindChar, h]

/-- On a text with no opening brace followed by a closing brace, the
extracted slice is empty or the single closing brace that ends the text,
so json.loads raises on it in either case. -/
lemma extracted_json_of_no_pair {cs : List Char}
    (h : ¬ ∃ i j : Nat, i < j ∧ cs[i]? = some '\x7b' ∧
      cs[j]? = some '\x7d') :
    extracted_json cs = [] ∨ extracted_json cs = ['\x7d'] := by
  unfold extracted_json pySlice
  cases h1 : firstIdx (· = '\x7b') cs with
  | none =>
    rw [pyFindChar_eq_none h1]
    cases h2 : firstIdx (· = '\x7d') cs.reverse with
    | none =>
      left
      rw [pyRFindChar_eq_none h2]
      norm_num
      rw [pySliceIdx_zero]
      simp
    | some j =>
      rw [pyRFindChar_eq_some h2]
      have hjlt : j < cs.length := by
        simpa using firstIdx_some_lt h2
      have hlen1 : 1 ≤ cs.length := by omega
      have hend : ((cs.length : Int) - 1 - (j : Int) + 1) =
          ((cs.length - j : Nat) : Int) := by
        omega
      rw [pySliceIdx_neg_one hlen1, hend,
        pySliceIdx_of_nonneg (by omega) (by omega)]
      rcases Nat.eq_zero_or_pos j with rfl | hjpos
      · right
        obtain ⟨c2, hget2, hc2⟩ := firstIdx_some_getElem h2
        have hc2e : c2 = '\x7d' := by simpa using hc2
        subst hc2e
        rw [List.getElem?_reverse (by simpa using hjlt)] at hget2
        simp only [Nat.sub_zero] at hget2 ⊢
        rw [Int.toNat_ofNat, List.take_length]
        have hlt : cs.length - 1 < cs.length := by omega
        rw [List.drop_eq_getElem_cons hlt]
        have hnil : cs.drop (cs.length - 1 + 1) = [] := by
          apply List.drop_eq_nil_of_le
          omega
        rw [hnil]
        rw [List.getElem?_eq_getElem hlt] at hget2
        simp only [Option.some.injEq] at hget2
        rw [hget2]
      · left
        apply take_drop_nil
        simp only [Int.toNat_ofNat]
        omega
  | some i =>
    rw [pyFindChar_eq_some h1]
    have hilt : i < cs.length := firstIdx_some_lt h1
    obtain ⟨c1, hget1, hc1⟩ := firstIdx_some_getElem h1
    have hc1e : c1 = '\x7b' := by simpa using hc1
    subst hc1e
    cases h2 : firstIdx (· = '\x7d') cs.reverse with
    | none =>
      left
      rw [pyRFindChar_eq_none h2]
      norm_num
      rw [pySliceIdx_zero]
      simp
    | some j =>
      rw [pyRFindChar_eq_some h2]
      have hjlt : j < cs.length := by
        simpa using firstIdx_some_lt h2
      obtain ⟨c2, hget2, hc2⟩ := firstIdx_some_getElem h2
      have hc2e : c2 = '\x7d' := by simpa using hc2
      subst hc2e
      rw [List.getElem?_reverse (by simpa using hjlt)] at hget2
      have hik : ¬ i < cs.length - 1 - j := fun hlt =>
        h ⟨i, cs.length - 1 - j, hlt, hget1, hget2⟩
      have hne : cs.length - 1 - j ≠ i := by
        intro e
        rw [e, hget1] at hget2
        exact absurd (Option.some.inj hget2) (by decide)
      have hki : cs.length - 1 - j < i := by omega
      left
      have hend : ((cs.length : Int) - 1 - (j : Int) + 1) =
          ((cs.length - j : Nat) : Int) := by
        omega
      rw [hend, pySliceIdx_of_nonneg (by omega) (by omega),
        pySliceIdx_of_nonneg (by omega) (by omega)]
      apply take_drop_nil
      simp only [Int.toNat_ofNat]
      omega

/-- Claim C6: when the completion text has no opening brace followed by a
closing brace (given that the decoder raises on the empty string and on a
lone closing brace, as json.loads does), or when the decoder raises on the
extracted substring, analyze_incidents returns exactly the result of the
model failure path, namely the deterministic fallback prioritization. -/
theorem claim_C6_malformed_equals_failure
    (loads : List Char → Option Analysis) (incidents : List Incident)
    (cs : List Char) :
    (loads (extracted_json cs) = none →
      analyze_incidents loads (ModelResult.success cs) incidents =
        analyze_incidents loads ModelResult.failure incidents) ∧
    (loads [] = none → loads ['\x7d'] = none →
      (¬ ∃ i j : Nat, i < j ∧ cs[i]? = some '\x7b' ∧
        cs[j]? = some '\x7d') →
      analyze_incidents loads (ModelResult.success cs) incidents =
        analyze_incidents loads ModelResult.failure incidents) := by
  constructor
  · intro hl
    simp [analyze_incidents, hl]
  · intro h0 h1 hnp
    rcases extracted_json_of_no_pair hnp with he | he <;>
      simp [analyze_incidents, he, h0, h1]

/-- Witness for claim C6 on a completion text with no brace at all. -/
theorem claim_C6_witness :
    analyze_incidents loadsNone (ModelResult.success ("hello".toList))
        [sampleDetectionIncident] =
      analyze_incidents loadsNone ModelResult.failure
        [sampleDetectionIncident] :=
  (claim_C6_malformed_equals_failure loadsNone [sampleDetectionIncident]
    ("hello".toList)).2 rfl rfl
    (by
      rintro ⟨i, j, hij, hi, hj⟩
      have hm : '\x7b' ∈ "hello".toList := List.getElem?_mem hi
      exact absurd hm (by decide))

/-! ## Hunting engine (threat_hunting.py) -/

/-- One hunting hypothesis record (threat_hunting.py, generate_hunting
_hypotheses and _default_hypotheses). -/
structure Hypothesis where
  title : String
  priority : String
  mitre_tactics : List String
  description : String
  hunting_steps : List String
  expected_indicators : List String
  deriving DecidableEq

/-- Model of ThreatHuntingEngine._default_hypotheses (threat_hunting.py
lines 291-310): the fixed single element fallback list. -/
def default_hypotheses : List Hypothesis :=
  [{ title := "Suspicious User Behavior Pattern"
     priority := "High"
     mitre_tactics := ["Initial Access", "Credential Access"]
     description := "Hunt for users with anomalous login patterns"
     hunting_steps :=
       ["Review users with failed login attempts",
        "Check for logins from unusual locations",
        "Correlate with threat intelligence"]
     expected_indicators :=
       ["Multiple failed logins followed by success",
        "Logins from geographically distant locations",
        "Logins at unusual hours"] }]

/-- Model of ThreatHuntingEngine.generate_hunting_hypotheses
(threat_hunting.py lines 243-289).  The findings parameter only shapes the
prompt text and therefore never influences which branch is taken; loads
stands for json.loads on the bracket slice, returning none exactly when it
raises.  When the call raises, or no bracket pair is located, or decoding
raises, the fixed default list is returned; when decoding succeeds the
decoded list is returned unchanged. -/
def generate_hunting_hypotheses
    (loads : List Char → Option (List Hypothesis))
    (_findings : List Char) (model : ModelResult) : List Hypothesis :=
  match model with
  | ModelResult.failure => default_hypotheses
  | ModelResult.success text =>
    let json_start := pyFindChar text '['
    let json_end := pyRFindChar text ']' + 1
    if 0 ≤ json_start ∧ json_start < json_end then
      match loads (pySlice text json_start json_end) with
      | some hypotheses => hypotheses
      | none => default_hypotheses
    else default_hypotheses

/-- Decoder recognising exactly the two character text of an empty JSON
array, on which json.loads succeeds and returns the empty list; every
other input raises.  Used to exhibit the empty completion counterexample. -/
def loads_empty_array (cs : List Char) : Option (List Hypothesis) :=
  if cs = "[]".toList then some [] else none

/-- Decoder for hypothesis lists that always raises; used by witnesses. -/
def loadsHypNone : List Char → Option (List Hypothesis) := fun _ => none

/-! ## Claim C5 -/

/-- Counterexample to claim C5 as stated: on the completion text that is
exactly an empty JSON array, the bracket pair is found, decoding succeeds
with the empty list, and generate_hunting_hypotheses returns that empty
list, so the result is not always non-empty. -/
theorem claim_C5_counterexample :
    generate_hunting_hypotheses loads_empty_array []
      (ModelResult.success ("[]".toList)) = [] := by
  decide

/-- Claim C5 as amended: generate_hunting_hypotheses returns the single
deterministic default hypothesis (hence a non-empty list) whenever the
model call raises, or the completion contains no parseable bracketed
array, or decoding the bracket slice raises; but a successfully decoded
bracketed array is returned unchanged, and may be empty. -/
theorem claim_C5_amended_default_paths
    (loads : List Char → Option (List Hypothesis)) (findings : List Char)
    (cs : List Char) :
    generate_hunting_hypotheses loads findings ModelResult.failure =
      default_hypotheses ∧
    default_hypotheses.length = 1 ∧
    (¬(0 ≤ pyFindChar cs '[' ∧
        pyFindChar cs '[' < pyRFindChar cs ']' + 1) →
      generate_hunting_hypotheses loads findings
        (ModelResult.success cs) = default_hypotheses) ∧
    (loads (pySlice cs (pyFindChar cs '[') (pyRFindChar cs ']' + 1)) =
        none →
      generate_hunting_hypotheses loads findings
        (ModelResult.success cs) = default_hypotheses) ∧
    (∀ hs, (0 ≤ pyFindChar cs '[' ∧
        pyFindChar cs '[' < pyRFindChar cs ']' + 1) →
      loads (pySlice cs (pyFindChar cs '[') (pyRFindChar cs ']' + 1)) =
        some hs →
      generate_hunting_hypotheses loads findings
        (ModelResult.success cs) = hs) := by
  refine ⟨rfl, rfl, ?_, ?_, ?_⟩
  · intro hc
    simp [generate_hunting_hypotheses, hc]
  · intro hl
    by_cases hc : (0 ≤ pyFindChar cs '[' ∧
        pyFindChar cs '[' < pyRFindChar cs ']' + 1)
    · simp [generate_hunting_hypotheses, hc, hl]
    · simp [generate_hunting_hypotheses, hc]
  · intro hs hc hl
    simp [generate_hunting_hypotheses, hc, hl]

/-- Witness for the amended claim C5: the failure path and the
no-bracket-pair path both return the default singleton. -/
theorem claim_C5_witness :
    generate_hunting_hypotheses loadsHypNone [] ModelResult.failure =
      default_hypotheses ∧
    generate_hunting_hypotheses loadsHypNone []
        (ModelResult.success ("no array".toList)) =
      default_hypotheses :=
  ⟨(claim_C5_amended_default_paths loadsHypNone [] []).1,
    (claim_C5_amended_default_paths loadsHypNone []
      ("no array".toList)).2.2.2.1 rfl⟩

/-! ## execute_hunt (threat_hunting.py lines 312-370) -/

/-- Result dictionary of execute_hunt.  The evidence list is initialized
empty and never touched by the translated code path. -/
structure HuntResults where
  status : String
  evidence : List String
  ai_summary : String
  recommended_actions : List String
  deriving DecidableEq

/-- Marker preceding the free text summary in the expected completion. -/
def summaryMarker : List Char := "SUMMARY:".toList

/-- Marker preceding the action lines in the expected completion. -/
def actionsMarker : List Char := "ACTIONS:".toList

/-- Parsing of the action lines (threat_hunting.py lines 360-364): keep
every line whose stripped form starts with a dash, and emit it with the
leading dashes and surrounding whitespace removed. -/
def parse_action_lines (actions_text : List Char) : List String :=
  ((splitOnNl actions_text).filter
      (fun line => listStartsWith (pyStrip line) ['-'])).map
    (fun line => String.mk (pyStrip (pyLStripChar '-' (pyStrip line))))

/-- Model of ThreatHuntingEngine.execute_hunt (threat_hunting.py lines
312-370).  On a model failure the summary is the fixed fallback text; on
success the summary is the stripped slice between the end of the summary
marker and the find result for the actions marker (which is -1 when the
marker is absent, making the slice end one character before the end of the
text), and the action lines are parsed only when the actions marker sits
at a positive index. -/
def execute_hunt (model : ModelResult) : HuntResults :=
  match model with
  | ModelResult.failure =>
    { status := "completed", evidence := [],
      ai_summary := "Hunt execution completed. Manual review recommended.",
      recommended_actions := [] }
  | ModelResult.success response_text =>
    if (firstSubIdx summaryMarker response_text).isSome then
      let summary_start : Int := pyFindSub response_text summaryMarker + 8
      let actions_start : Int := pyFindSub response_text actionsMarker
      let ai_summary := String.mk
        (pyStrip (pySlice response_text summary_start actions_start))
      if 0 < actions_start then
        { status := "completed", evidence := [], ai_summary := ai_summary,
          recommended_actions := parse_action_lines
            (pySlice response_text (actions_start + 8)
              response_text.length) }
      else
        { status := "completed", evidence := [], ai_summary := ai_summary,
          recommended_actions := [] }
    else
      { status := "completed", evidence := [], ai_summary := "",
        recommended_actions := [] }

/-- A string that starts with a pattern is at least as long. -/
lemma listStartsWith_length :
    ∀ {s pat : List Char}, listStartsWith s pat = true →
      pat.length ≤ s.length := by
  intro s
  induction s with
  | nil =>
    intro pat h
    cases pat with
    | nil => simp
    | cons p ps => exact absurd h (by simp [listStartsWith])
  | cons c cs ih =>
    intro pat h
    cases pat with
    | nil => simp
    | cons p ps =>
      simp only [listStartsWith, Bool.and_eq_true] at h
      have := ih h.2
      simp only [List.length_cons]
      omega

/-- The suffix at an index reported by firstSubIdx starts with the
pattern. -/
lemma firstSubIdx_some_drop {pat : List Char} :
    ∀ {cs : List Char} {i : Nat}, firstSubIdx pat cs = some i →
      listStartsWith (cs.drop i) pat = true := by
  intro cs
  induction cs with
  | nil =>
    intro i h
    simp only [firstSubIdx] at h
    by_cases hw : listStartsWith [] pat
    · rw [if_pos hw] at h
      simp only [Option.some.injEq] at h
      subst h
      exact hw
    · rw [if_neg hw] at h
      exact Option.noConfusion h
  | cons c cs ih =>
    intro i h
    simp only [firstSubIdx] at h
    by_cases hw : listStartsWith (c :: cs) pat
    · rw [if_pos hw] at h
      simp only [Option.some.injEq] at h
      subst h
      exact hw
    · rw [if_neg hw] at h
      cases hrec : firstSubIdx pat cs <;> rw [hrec] at h
      · exact Option.noConfusion h
      · simp at h
        subst h
        simpa using ih hrec

/-- Any index reported by firstSubIdx is at most the string length. -/
lemma firstSubIdx_some_le {pat : List Char} :
    ∀ {cs : List Char} {i : Nat}, firstSubIdx pat cs = some i →
      i ≤ cs.length := by
  intro cs
  induction cs with
  | nil =>
    intro i h
    simp only [firstSubIdx] at h
    by_cases hw : listStartsWith [] pat
    · rw [if_pos hw] at h
      simp only [Option.some.injEq] at h
      omega
    · rw [if_neg hw] at h
      exact Option.noConfusion h
  | cons c cs ih =>
    intro i h
    simp only [firstSubIdx] at h
    by_cases hw : listStartsWith (c :: cs) pat
    · rw [if_pos hw] at h
      simp only [Option.some.injEq] at h
      omega
    · rw [if_neg hw] at h
      cases hrec : firstSubIdx pat cs <;> rw [hrec] at h
      · exact Option.noConfusion h
      · simp at h
        subst h
        have := ih hrec
        simp only [List.length_cons]
        omega

/-- An occurrence of the pattern fits inside the string. -/
lemma firstSubIdx_some_bound {pat cs : List Char} {i : Nat}
    (h : firstSubIdx pat cs = some i) :
    i + pat.length ≤ cs.length := by
  have hsw := firstSubIdx_some_drop h
  have hlen := listStartsWith_length hsw
  have hle := firstSubIdx_some_le h
  simp only [List.length_drop] at hlen
  omega

/-- Equation for pyFindSub on a found pattern. -/
lemma pyFindSub_eq_some {cs pat : List Char} {i : Nat}
    (h : firstSubIdx pat cs = some i) : pyFindSub cs pat = (i : Int) := by
  simp [pyFindSub, h]

/-- Equation for pyFindSub on an absent pattern. -/
lemma pyFindSub_eq_none {cs pat : List Char}
    (h : firstSubIdx pat cs = none) : pyFindSub cs pat = -1 := by
  simp [pyFindSub, h]

/-- Computation of a slice with in range nonnegative endpoints. -/
lemma pySlice_nonneg {cs : List Char} {a b : Nat} (ha : a ≤ cs.length)
    (hb : b ≤ cs.length) :
    pySlice cs (a : Int) (b : Int) = (cs.drop a).take (b - a) := by
  unfold pySlice
  rw [pySliceIdx_of_nonneg (by omega) (by omega),
    pySliceIdx_of_nonneg (by omega) (by omega)]
  simp only [Int.toNat_ofNat]
  exact List.drop_take b a cs

/-- Computation of a slice whose end is the Python index -1: it removes
the final character of the remaining suffix. -/
lemma pySlice_neg_one {cs : List Char} {a : Nat} (ha : a ≤ cs.length)
    (h1 : 1 ≤ cs.length) :
    pySlice cs (a : Int) (-1) = (cs.drop a).dropLast := by
  unfold pySlice
  rw [pySliceIdx_of_nonneg (by omega) (by omega), pySliceIdx_neg_one h1]
  simp only [Int.toNat_ofNat]
  rw [List.drop_take (cs.length - 1) a cs]
  rw [List.dropLast_eq_take, List.length_drop]
  congr 1
  omega

/-! ## Claim C7 -/

/-- Completion text of the claim C7 example. -/
def c7text : List Char := "SUMMARY: X\n\nACTIONS:\n- A1\n- A2".toList

/-- Claim C7: on the example completion the summary parses to X and the
actions to A1 and A2; in general, when both markers occur and the actions
marker comes after the summary marker, the summary is the stripped text
strictly between the end of the summary marker and the actions marker, and
the actions are the subsequent lines beginning with a dash, trimmed of
leading dashes and surrounding whitespace. -/
theorem claim_C7_hunt_parsing :
    (execute_hunt (ModelResult.success c7text)).ai_summary = "X" ∧
    (execute_hunt (ModelResult.success c7text)).recommended_actions =
      ["A1", "A2"] ∧
    (∀ (cs : List Char) (si ai : Nat),
      firstSubIdx summaryMarker cs = some si →
      firstSubIdx actionsMarker cs = some ai → si < ai →
      (execute_hunt (ModelResult.success cs)).ai_summary =
        String.mk (pyStrip ((cs.drop (si + 8)).take (ai - (si + 8)))) ∧
      (execute_hunt (ModelResult.success cs)).recommended_actions =
        parse_action_lines (cs.drop (ai + 8))) := by
  refine ⟨by decide, by decide, ?_⟩
  intro cs si ai hsi hai hlt
  have hsiB : si + 8 ≤ cs.length := by
    have hb := firstSubIdx_some_bound hsi
    rw [show summaryMarker.length = 8 from rfl] at hb
    exact hb
  have haiB : ai + 8 ≤ cs.length := by
    have hb := firstSubIdx_some_bound hai
    rw [show actionsMarker.length = 8 from rfl] at hb
    exact hb
  simp only [execute_hunt]
  rw [hsi]
  simp only [Option.isSome_some, if_true]
  rw [pyFindSub_eq_some hsi, pyFindSub_eq_some hai]
  rw [if_pos (by omega : (0 : Int) < (ai : Int))]
  have hc1 : ((si : Int) + 8) = ((si + 8 : Nat) : Int) := by push_cast; ring
  have hc2 : ((ai : Int) + 8) = ((ai + 8 : Nat) : Int) := by push_cast; ring
  rw [hc1, hc2]
  rw [pySlice_nonneg hsiB (by omega), pySlice_nonneg (by omega)
    (le_refl cs.length)]
  have htake : cs.length - (ai + 8) = (cs.drop (ai + 8)).length := by
    simp
  rw [htake, List.take_length]
  exact ⟨rfl, rfl⟩

/-- Completion text used by the claim C7 witness. -/
def w7text : List Char := "SUMMARY: ok\nACTIONS:\n- go".toList

/-- Witness for the general part of claim C7 at a small completion. -/
theorem claim_C7_witness :
    (execute_hunt (ModelResult.success w7text)).ai_summary =
      String.mk (pyStrip ((w7text.drop (0 + 8)).take (12 - (0 + 8)))) ∧
    (execute_hunt (ModelResult.success w7text)).recommended_actions =
      parse_action_lines (w7text.drop (12 + 8)) :=
  claim_C7_hunt_parsing.2.2 w7text 0 12 (by decide) (by decide)
    (by decide)

/-! ## Claim C10 -/

/-- Claim C10: when the completion contains the summary marker but not the
actions marker, the find result -1 for the actions marker is used as the
slice end, so the summary is the text after the summary marker with its
final character removed (then stripped), and the recommended actions stay
empty. -/
theorem claim_C10_missing_actions_marker (cs : List Char) (si : Nat)
    (hsi : firstSubIdx summaryMarker cs = some si)
    (hai : firstSubIdx actionsMarker cs = none) :
    (execute_hunt (ModelResult.success cs)).ai_summary =
      String.mk (pyStrip ((cs.drop (si + 8)).dropLast)) ∧
    (execute_hunt (ModelResult.success cs)).recommended_actions = [] := by
  have hsiB : si + 8 ≤ cs.length := by
    have hb := firstSubIdx_some_bound hsi
    rw [show summaryMarker.length = 8 from rfl] at hb
    exact hb
  have h1 : 1 ≤ cs.length := by omega
  simp only [execute_hunt]
  rw [hsi]
  simp only [Option.isSome_some, if_true]
  rw [pyFindSub_eq_some hsi, pyFindSub_eq_none hai]
  rw [if_neg (by omega : ¬ (0 : Int) < -1)]
  have hc1 : ((si : Int) + 8) = ((si + 8 : Nat) : Int) := by push_cast; ring
  rw [hc1]
  rw [pySlice_neg_one (by omega) h1]
  exact ⟨rfl, rfl⟩

/-- Completion text used by the claim C10 witness: it mentions SUMMARY:
but never ACTIONS:. -/
def w10text : List Char := "SUMMARY: hi!".toList

/-- Witness for claim C10: the final exclamation mark is cut off by the
-1 slice end and no action is produced. -/
theorem claim_C10_witness :
    (execute_hunt (ModelResult.success w10text)).ai_summary = "hi" ∧
    (execute_hunt (ModelResult.success w10text)).recommended_actions
      = [] := by
  have h := claim_C10_missing_actions_marker w10text 0 (by decide)
    (by decide)
  exact ⟨h.1.trans (by decide), h.2⟩

/-! ## Investigator (ai_agent.py lines 207-311) -/

/-- One timeline entry (ai_agent.py lines 259-264). -/
structure TimelineEntry where
  timestamp : Option String
  description : String
  source : String
  indicators : List String
  deriving DecidableEq

/-- Threat intelligence record (ai_agent.py lines 275-279). -/
structure ThreatIntel where
  actor : String
  ttps : List String
  malware_family : String
  deriving DecidableEq

/-- Affected assets record (ai_agent.py lines 285-288). -/
structure AffectedAssets where
  hosts : List String
  users : List String
  deriving DecidableEq

/-- Investigation dictionary (ai_agent.py lines 226-233).  The
threat_intel slot starts as an empty dictionary, modelled by none, and is
filled only when the corresponding flag is set; affected_assets is always
overwritten before the dictionary is returned. -/
structure Investigation where
  incident_id : Option String
  timeline : List TimelineEntry
  related_events : List String
  threat_intel : Option ThreatIntel
  affected_assets : AffectedAssets
  ai_summary : String
  deriving DecidableEq

/-- Model of IncidentResponseAgent._build_timeline (ai_agent.py lines
255-265): a single entry for the incident itself. -/
def build_timeline (incident : Incident) : List TimelineEntry :=
  [{ timestamp := incident.timestamp
     description := "Incident detected: " ++ incident.title
     source := incident.source
     indicators := [] }]

/-- Model of IncidentResponseAgent._find_related_events (ai_agent.py lines
267-271): always the empty list. -/
def find_related_events (_incident : Incident) : List String := []

/-- Model of IncidentResponseAgent._get_threat_intelligence (ai_agent.py
lines 273-281): the fixed placeholder record. -/
def get_threat_intelligence (_incident : Incident) : ThreatIntel :=
  { actor := "Unknown", ttps := [], malware_family := "Unknown" }

/-- Model of IncidentResponseAgent._extract_affected_assets (ai_agent.py
lines 283-288): empty host and user lists. -/
def extract_affected_assets (_incident : Incident) : AffectedAssets :=
  { hosts := [], users := [] }

/-- Model of IncidentResponseAgent._generate_investigation_summary
(ai_agent.py lines 290-311): the completion text on success, the fixed
placeholder on any raised error. -/
def generate_investigation_summary (model : ModelResult) : String :=
  match model with
  | ModelResult.failure => "Investigation summary unavailable."
  | ModelResult.success text => String.mk text

/-- Model of IncidentResponseAgent.investigate_incident (ai_agent.py lines
207-253): each gather step runs behind its flag, affected assets are
extracted unconditionally, and the summary call closes the
investigation.  The function is total: no path raises. -/
def investigate_incident (model : ModelResult) (incident : Incident)
    (include_timeline include_related_events include_threat_intel : Bool) :
    Investigation :=
  { incident_id := incident.id
    timeline := if include_timeline then build_timeline incident else []
    related_events :=
      if include_related_events then find_related_events incident else []
    threat_intel :=
      if include_threat_intel then some (get_threat_intelligence incident)
      else none
    affected_assets := extract_affected_assets incident
    ai_summary := generate_investigation_summary model }

/-! ## Claim C8 -/

/-- Claim C8: for every incident, every combination of the three flags and
every model outcome, investigate_incident returns a complete Investigation
record with all six fields populated as documented; affected assets are
extracted regardless of the flags; and on a model failure the summary is
the literal placeholder string rather than an error. -/
theorem claim_C8_investigation_total (model : ModelResult)
    (incident : Incident) (t r i : Bool) :
    investigate_incident model incident t r i =
      { incident_id := incident.id
        timeline := if t then build_timeline incident else []
        related_events := if r then find_related_events incident else []
        threat_intel :=
          if i then some (get_threat_intelligence incident) else none
        affected_assets := extract_affected_assets incident
        ai_summary := generate_investigation_summary model } ∧
    (investigate_incident model incident t r i).affected_assets =
      extract_affected_assets incident ∧
    (investigate_incident ModelResult.failure incident t r i).ai_summary =
      "Investigation summary unavailable." :=
  ⟨rfl, rfl, rfl⟩

/-- Witness instantiating claim C8 with all flags off and a failing model
call. -/
theorem claim_C8_witness :
    (investigate_incident ModelResult.failure sampleDetectionIncident
        false false false).affected_assets =
      extract_affected_assets sampleDetectionIncident ∧
    (investigate_incident ModelResult.failure sampleDetectionIncident
        false false false).ai_summary =
      "Investigation summary unavailable." :=
  ⟨(claim_C8_investigation_total ModelResult.failure
      sampleDetectionIncident false false false).2.1,
    (claim_C8_investigation_total ModelResult.failure
      sampleDetectionIncident false false false).2.2⟩
